import Mathlib

/-!
Shallow embedding of the tansu storage engine, metadata cache and schema
registry (`src/tansu-storage/src/pg.rs`,
`src/tansu-storage/src/dynostore/metadata.rs`,
`src/tansu-schema-registry/src/avro.rs`,
`src/tansu-schema-registry/src/json.rs`), with theorems checking the
specification's claims against the embedded code.

Byte strings are modelled as `List Nat`; SQL identifiers and timestamps as
`Int` (i64 columns); NULLable columns as `Option`.
-/

namespace Tansu

/-- Watermark row for one topition, as read by `Postgres::produce`
(`pg.rs` lines 579-598): each of the three columns is an `Option<i64>`,
`none` encoding an unset watermark. -/
structure Watermark where
  low : Option Int
  high : Option Int
  stable : Option Int
  deriving Repr, DecidableEq

/-- Header key/value pair carried by a record (both sides optional bytes). -/
structure HeaderKV where
  key : Option (List Nat)
  value : Option (List Nat)
  deriving Repr, DecidableEq

/-- One record of an inflated batch as consumed by `Postgres::produce`
(`pg.rs` lines 616-655): a timestamp delta, optional key and value bytes,
and headers. -/
structure InflatedRecord where
  timestampDelta : Int
  key : Option (List Nat)
  value : Option (List Nat)
  headers : List HeaderKV
  deriving Repr, DecidableEq

/-- The inflated batch fields used by `Postgres::produce`. -/
structure InflatedBatch where
  baseTimestamp : Int
  producerId : Int
  baseSequence : Int
  records : List InflatedRecord
  deriving Repr, DecidableEq

/-- One row of the `record` table inserted by `pg/record_insert.sql`
with the arguments `Postgres::produce` passes at `pg.rs` lines 624-640. -/
structure RecordRow where
  offset : Int
  producerId : Int
  baseSequence : Int
  timestamp : Int
  key : Option (List Nat)
  value : Option (List Nat)
  deriving Repr, DecidableEq

/-- Persistent state of one topition: its watermark row, its record rows in
insertion (id) order, and its header rows keyed by record offset.
Modelled from the spec: the `pg/*.sql` statements themselves are not under
`src/`; per spec section 6 they are plain select/insert/update DML on the
`watermark`, `record` and `header` tables, so the state is modelled as the
watermark triple plus append-only row lists. -/
structure PartitionState where
  watermark : Watermark
  records : List RecordRow
  headers : List (Int × HeaderKV)
  deriving Repr, DecidableEq

/-- `Postgres::produce` (`pg.rs` lines 569-681): read the watermark under
`FOR UPDATE`; for each record at index `delta` assign
`offset = high.map_or(delta, |high| high + delta + 1)` and insert the record
row with timestamp `base_timestamp + timestamp_delta` and its header rows;
update the watermark to `(low.unwrap_or_default(),
high.map_or(N-1, |h| h+N), stable.map_or(N-1, |s| s+N))`; commit; return
`high.map_or(0, |h| h+1)`. -/
def produce (st : PartitionState) (batch : InflatedBatch) : PartitionState × Int :=
  let low := st.watermark.low
  let high := st.watermark.high
  let stable := st.watermark.stable
  let recordsLen : Int := batch.records.length
  let offsetOf : Nat → Int := fun delta =>
    match high with
    | none => (delta : Int)
    | some h => h + (delta : Int) + 1
  let newRows : List RecordRow := batch.records.enum.map fun dr =>
    { offset := offsetOf dr.1
      producerId := batch.producerId
      baseSequence := batch.baseSequence
      timestamp := batch.baseTimestamp + dr.2.timestampDelta
      key := dr.2.key
      value := dr.2.value }
  let newHeaders : List (Int × HeaderKV) :=
    (batch.records.enum.map fun dr =>
      dr.2.headers.map fun hd => (offsetOf dr.1, hd)).flatten
  let watermark' : Watermark :=
    { low := some (low.getD 0)
      high := some (match high with
        | none => recordsLen - 1
        | some h => h + recordsLen)
      stable := some (match stable with
        | none => recordsLen - 1
        | some s => s + recordsLen) }
  ({ watermark := watermark'
     records := st.records ++ newRows
     headers := st.headers ++ newHeaders },
   match high with
   | none => 0
   | some h => h + 1)

end Tansu

namespace Tansu

/-- C1 helper: the record rows appended by a produce call. -/
def producedRows (st : PartitionState) (batch : InflatedBatch) : List RecordRow :=
  (produce st batch).1.records.drop st.records.length

theorem produce_records_eq (st : PartitionState) (batch : InflatedBatch) :
    (produce st batch).1.records = st.records ++ producedRows st batch := by
  simp [producedRows, produce]

/-- C1: for a produce of `N` records onto a partition whose watermark is
`(low, high, stable)`, the record at index `delta` is assigned offset
`high + delta + 1` (or `delta` when `high` is unset), the watermark becomes
`(low, high+N, stable+N)` (or `(0, N-1, N-1)` from a fully unset watermark),
and the returned base offset is `high + 1` (or `0` when the log was empty,
i.e. `high` unset). -/
theorem produce_spec (st : PartitionState) (batch : InflatedBatch)
    (_hN : 0 < batch.records.length) :
    let N : Int := batch.records.length
    let out := produce st batch
    (∀ delta : Nat, ∀ h : delta < batch.records.length,
        (producedRows st batch).get ⟨delta, by
          simpa [producedRows, produce] using h⟩ =
        { offset :=
            match st.watermark.high with
            | none => (delta : Int)
            | some hi => hi + (delta : Int) + 1
          producerId := batch.producerId
          baseSequence := batch.baseSequence
          timestamp := batch.baseTimestamp +
            (batch.records.get ⟨delta, h⟩).timestampDelta
          key := (batch.records.get ⟨delta, h⟩).key
          value := (batch.records.get ⟨delta, h⟩).value }) ∧
    (∀ l hi s, st.watermark = ⟨some l, some hi, some s⟩ →
        out.1.watermark = ⟨some l, some (hi + N), some (s + N)⟩ ∧
        out.2 = hi + 1) ∧
    (st.watermark = ⟨none, none, none⟩ →
        out.1.watermark = ⟨some 0, some (N - 1), some (N - 1)⟩ ∧
        out.2 = 0) := by
  refine ⟨?_, ?_, ?_⟩
  · intro delta h
    simp only [producedRows, produce]
    rw [List.get_eq_getElem]
    simp only [List.drop_left, List.getElem_map, List.getElem_enum]
    rfl
  · intro l hi s hw
    constructor
    · simp [produce, hw]
    · simp [produce, hw]
  · intro hw
    constructor
    · simp [produce, hw]
    · simp [produce, hw]

/-- C1 witness: a concrete two-record produce onto watermark
`(some 0, some 4, some 4)`. -/
theorem produce_spec_witness :
    let batch : InflatedBatch :=
      { baseTimestamp := 100, producerId := 7, baseSequence := 0
        records := [⟨0, some [1], none, []⟩, ⟨5, none, some [2], []⟩] }
    let st : PartitionState :=
      { watermark := ⟨some 0, some 4, some 4⟩, records := [], headers := [] }
    0 < batch.records.length ∧
    (produce st batch).1.watermark = ⟨some 0, some 6, some 6⟩ ∧
    (produce st batch).2 = 5 := by
  refine ⟨by decide, ?_, ?_⟩
  · exact (produce_spec
      { watermark := ⟨some 0, some 4, some 4⟩, records := [], headers := [] }
      { baseTimestamp := 100, producerId := 7, baseSequence := 0
        records := [⟨0, some [1], none, []⟩, ⟨5, none, some [2], []⟩] }
      (by decide)).2.1 0 4 4 rfl |>.1
  · exact (produce_spec
      { watermark := ⟨some 0, some 4, some 4⟩, records := [], headers := [] }
      { baseTimestamp := 100, producerId := 7, baseSequence := 0
        records := [⟨0, some [1], none, []⟩, ⟨5, none, some [2], []⟩] }
      (by decide)).2.1 0 4 4 rfl |>.2

end Tansu

namespace Tansu

/-- One row as returned by `pg/record_fetch.sql` and consumed by
`Postgres::fetch` (`pg.rs` lines 703-803): columns 0-4 are the record id
(offset), timestamp, key, value and the key+value byte size; the header rows
for the record's offset (from `pg/header_fetch.sql`) are attached. -/
structure FetchedRow where
  offset : Int
  timestamp : Int
  key : Option (List Nat)
  value : Option (List Nat)
  size : Int
  headers : List HeaderKV
  deriving Repr, DecidableEq

/-- Bytes contributed by a record's headers in the fetch loop
(`pg.rs` lines 783-793): a present header key or value adds its length. -/
def headerBytes (hs : List HeaderKV) : Int :=
  hs.foldl (fun acc h =>
    acc + (h.key.elim 0 fun k => (k.length : Int))
        + (h.value.elim 0 fun v => (v.length : Int))) 0

/-- One record of the batch built by `Postgres::fetch`. -/
structure OutRecord where
  offsetDelta : Int
  timestampDelta : Int
  key : Option (List Nat)
  value : Option (List Nat)
  headers : List HeaderKV
  deriving Repr, DecidableEq

/-- The inflated batch built by `Postgres::fetch`. -/
structure OutBatch where
  baseOffset : Int
  baseTimestamp : Int
  records : List OutRecord
  deriving Repr, DecidableEq

/-- The record loop of `Postgres::fetch` (`pg.rs` lines 733-803): for each
row, add the row's key+value size (column 4) and its header bytes to the
byte counter, append a record whose `offset_delta` is the row's offset minus
`base_offset` and whose `timestamp_delta` is computed from the FIRST row's
timestamp (`first.try_get::<_, SystemTime>(1)`, `pg.rs` line 739) minus
`base_timestamp`, then break when `bytes > min_bytes`. -/
def fetchLoop (baseOffset baseTimestamp firstTimestamp minBytes : Int) :
    List FetchedRow → Int → List OutRecord
  | [], _ => []
  | r :: rest, bytes =>
    let bytes' := bytes + r.size + headerBytes r.headers
    { offsetDelta := r.offset - baseOffset
      timestampDelta := firstTimestamp - baseTimestamp
      key := r.key
      value := r.value
      headers := r.headers } ::
    (if minBytes < bytes' then []
     else fetchLoop baseOffset baseTimestamp firstTimestamp minBytes rest bytes')

/-- `Postgres::fetch` batch construction (`pg.rs` lines 718-808): when the
query returned no rows the builder defaults give an empty batch; otherwise
the first row sets `base_offset` and `base_timestamp` and the loop runs over
all returned rows starting from a zero byte counter. -/
def fetchBatch (rows : List FetchedRow) (minBytes : Int) : OutBatch :=
  match rows with
  | [] => { baseOffset := 0, baseTimestamp := 0, records := [] }
  | first :: _ =>
    { baseOffset := first.offset
      baseTimestamp := first.timestamp
      records := fetchLoop first.offset first.timestamp first.timestamp minBytes rows 0 }

/-- Modelled from the spec: `pg/record_fetch.sql` is not under `src/`; per
the spec it reads the records with `id ≥ offset` ordered by id with a
server-side `max_bytes` row cap (`pg.rs` passes `max_bytes as i64` as the
fifth query parameter). The partition's rows being stored in id order, the
query is a filter followed by a row cap. -/
def recordFetchQuery (rows : List FetchedRow) (offset : Int) (maxBytes : Nat) :
    List FetchedRow :=
  (rows.filter fun r => decide (offset ≤ r.offset)).take maxBytes

/-- `Postgres::fetch` end to end: query then batch construction. -/
def fetch (rows : List FetchedRow) (offset minBytes : Int) (maxBytes : Nat) :
    OutBatch :=
  fetchBatch (recordFetchQuery rows offset maxBytes) minBytes

end Tansu

namespace Tansu

/-- C2: the claim that each retained record carries a timestamp delta equal
to its own stored timestamp minus `base_timestamp` FAILS on the code: the
fetch loop reads the timestamp of the FIRST row (`pg.rs` line 739) for every
record, so every record's timestamp delta is `0`. Here the two stored rows
have timestamps `100` and `200`; the claim requires deltas `[0, 100]`, the
code produces `[0, 0]`. -/
theorem fetch_timestamp_delta_is_always_zero :
    let rows : List FetchedRow :=
      [ ⟨0, 100, some [1], none, 1, []⟩, ⟨1, 200, some [2], none, 1, []⟩ ]
    (fetch rows 0 1000 10).baseTimestamp = 100 ∧
    (fetch rows 0 1000 10).records.map (fun r => r.timestampDelta) = [0, 0] ∧
    (fetch rows 0 1000 10).records.map (fun r => r.offsetDelta) = [0, 1] := by
  refine ⟨rfl, rfl, rfl⟩

/-- C10: a fetch on a partition holding at least one record with offset at
or above the requested offset always includes the first such record in the
returned batch — whatever `min_bytes` is (including `0`, or smaller than the
record's byte size) — because the byte-bound check runs only after a record
has been appended. The included record becomes the batch base. -/
theorem fetch_includes_first_qualifying (rows : List FetchedRow)
    (o minBytes : Int) (maxBytes : Nat)
    (hsorted : List.Pairwise (fun a b => a.offset < b.offset) rows)
    (hmax : 1 ≤ maxBytes)
    (hex : ∃ r ∈ rows, o ≤ r.offset) :
    ∃ first,
      (recordFetchQuery rows o maxBytes).head? = some first ∧
      o ≤ first.offset ∧
      (∀ r ∈ rows, o ≤ r.offset → first.offset ≤ r.offset) ∧
      (fetch rows o minBytes maxBytes).baseOffset = first.offset ∧
      (fetch rows o minBytes maxBytes).records.head? = some
        { offsetDelta := 0, timestampDelta := 0
          key := first.key, value := first.value, headers := first.headers } := by
  obtain ⟨r, hr, hro⟩ := hex
  have hrf : r ∈ rows.filter (fun x => decide (o ≤ x.offset)) :=
    List.mem_filter.2 ⟨hr, by simpa using hro⟩
  obtain ⟨m, rfl⟩ : ∃ m, maxBytes = m + 1 := ⟨maxBytes - 1, by omega⟩
  cases hq : rows.filter (fun x => decide (o ≤ x.offset)) with
  | nil => rw [hq] at hrf; cases hrf
  | cons f t =>
    have hquery : recordFetchQuery rows o (m + 1) = f :: t.take m := by
      simp [recordFetchQuery, hq]
    have hfq : f ∈ rows.filter (fun x => decide (o ≤ x.offset)) := by
      rw [hq]; exact List.mem_cons_self _ _
    have hof : o ≤ f.offset := by
      have := (List.mem_filter.1 hfq).2
      simpa using this
    refine ⟨f, ?_, hof, ?_, ?_, ?_⟩
    · rw [hquery]; rfl
    · intro r' hr' hor'
      have hr'f : r' ∈ rows.filter (fun x => decide (o ≤ x.offset)) :=
        List.mem_filter.2 ⟨hr', by simpa using hor'⟩
      rw [hq] at hr'f
      rcases List.mem_cons.1 hr'f with h | h
      · exact le_of_eq (by rw [h])
      · have hpw := hsorted.filter (fun x => decide (o ≤ x.offset))
        rw [hq] at hpw
        exact le_of_lt ((List.pairwise_cons.1 hpw).1 r' h)
    · rw [fetch, hquery]; rfl
    · rw [fetch, hquery]
      simp [fetchBatch, fetchLoop, sub_self]

/-- C10 witness: fetching at offset `5` with `min_bytes = 0` from a
partition holding one large record at offset `7` still returns that
record. -/
theorem fetch_includes_first_qualifying_witness :
    let rows : List FetchedRow := [⟨7, 100, some [1, 2, 3], none, 3, []⟩]
    (List.Pairwise (fun a b => a.offset < b.offset) rows ∧
      1 ≤ 10 ∧ (∃ r ∈ rows, (5:Int) ≤ r.offset)) ∧
    (fetch rows 5 0 10).baseOffset = 7 ∧
    (fetch rows 5 0 10).records.head? = some
      { offsetDelta := 0, timestampDelta := 0
        key := some [1, 2, 3], value := none, headers := [] } := by
  refine ⟨⟨by decide, by norm_num, ⟨⟨7, 100, some [1, 2, 3], none, 3, []⟩, by decide⟩⟩, ?_⟩
  have h := fetch_includes_first_qualifying
    [⟨7, 100, some [1, 2, 3], none, 3, []⟩] 5 0 10
    (by decide) (by norm_num)
    ⟨⟨7, 100, some [1, 2, 3], none, 3, []⟩, by decide⟩
  obtain ⟨first, hhead, _, _, hbase, hrec⟩ := h
  have hfirst : first = ⟨7, 100, some [1, 2, 3], none, 3, []⟩ := by
    have : (recordFetchQuery [⟨7, 100, some [1, 2, 3], none, 3, []⟩] 5 10).head? =
        some ⟨7, 100, some [1, 2, 3], none, 3, []⟩ := rfl
    rw [this] at hhead
    exact (Option.some_injective _ hhead.symm)
  subst hfirst
  exact ⟨hbase, hrec⟩

end Tansu

namespace Tansu

/-- The Kafka protocol error codes this development needs. -/
inductive ErrorCode where
  | none
  | topicAlreadyExists
  | unknownTopicOrPartition
  | invalidRecord
  | unknownProducerId
  | unknownServerError
  deriving Repr, DecidableEq

/-- A topic configuration entry of a `CreatableTopic`. -/
structure TopicConfig where
  name : String
  value : Option String
  deriving Repr, DecidableEq

/-- The `CreatableTopic` fields `Postgres::create_topic` uses. -/
structure CreatableTopic where
  name : String
  numPartitions : Int
  replicationFactor : Int
  configs : Option (List TopicConfig)
  deriving Repr, DecidableEq

/-- A row of the `topic` table. -/
structure TopicRow where
  uuid : Nat
  name : String
  numPartitions : Int
  replicationFactor : Int
  deriving Repr, DecidableEq

/-- The tables touched by `Postgres::create_topic` for one cluster. -/
structure DbState where
  topics : List TopicRow
  topitions : List (String × Int)
  watermarks : List (String × Int × Watermark)
  topicConfigs : List (String × String × Option String)
  deriving Repr, DecidableEq

/-- `Postgres::create_topic` (`pg.rs` lines 279-367): in one transaction,
insert the topic row (a unique violation on `(cluster, name)` maps to
`TopicAlreadyExists`), then one topition row and one watermark row per
partition index in `0..num_partitions`, then the configs; then COMMIT
unconditionally at line 364 — the `validate_only` flag is read nowhere after
the `debug!` at line 280. The fresh topic UUID generated by the database is
passed in as `uuid`. Modelled from the spec: the `pg/*_insert.sql` texts are
not under `src/`; the watermark row is created with all three columns unset
(they read back as NULL in `produce`). -/
def create_topic (st : DbState) (uuid : Nat) (topic : CreatableTopic)
    (validate_only : Bool) : Except ErrorCode (DbState × Nat) :=
  let _ := validate_only
  if st.topics.any (fun t => t.name == topic.name) then
    .error .topicAlreadyExists
  else
    let parts : List Int := (List.range topic.numPartitions.toNat).map
      (fun p => (p : Int))
    .ok ({ topics := st.topics ++
             [⟨uuid, topic.name, topic.numPartitions, topic.replicationFactor⟩]
           topitions := st.topitions ++ parts.map (fun p => (topic.name, p))
           watermarks := st.watermarks ++ parts.map
             (fun p => (topic.name, p, ⟨none, none, none⟩))
           topicConfigs := st.topicConfigs ++
             (topic.configs.getD []).map
               (fun c => (topic.name, c.name, c.value)) }, uuid)

/-- C3: the claim that `create_topic` with `validate_only = true` leaves the
persistent state unchanged FAILS on the code: `validate_only` is never
consulted and the transaction is always committed, so a validate-only call
on an empty database still leaves the topic, topition and watermark rows
behind — and the call behaves identically with the flag on or off. -/
theorem create_topic_commits_despite_validate_only :
    create_topic ⟨[], [], [], []⟩ 99 ⟨"t", 1, 1, none⟩ true =
      .ok (⟨[⟨99, "t", 1, 1⟩], [("t", 0)], [("t", 0, ⟨none, none, none⟩)], []⟩,
        99) ∧
    (∀ st uuid topic,
      create_topic st uuid topic true = create_topic st uuid topic false) := by
  exact ⟨rfl, fun _ _ _ => rfl⟩

end Tansu

namespace Tansu

/-- A cache entry (`metadata.rs` lines 37-41): the backend's e-tag and
version plus the instant the entry was (re)tagged, in milliseconds. -/
structure CacheEntry where
  eTag : Option String
  version : Option String
  taggedAt : Nat
  deriving Repr, DecidableEq

/-- The in-memory map `path → CacheEntry`, modelling the `HashMap` guarded
by the mutex in `Cache` (`metadata.rs` line 79). -/
def Entries := String → Option CacheEntry

/-- The retain predicate of `Cache::evict` (`metadata.rs` lines 121-124):
keep an entry iff `now.duration_since(tagged_at)` succeeds (so
`tagged_at ≤ now`) and the elapsed milliseconds are strictly below
`retention`. -/
def keepEntry (retention now : Nat) (e : CacheEntry) : Bool :=
  decide (e.taggedAt ≤ now) && decide (now - e.taggedAt < retention)

/-- `Cache::evict`: drop every entry aged past `retention`. -/
def evictScan (retention now : Nat) (es : Entries) : Entries :=
  fun p => match es p with
    | some e => if keepEntry retention now e then some e else none
    | none => none

/-- `HashMap::insert`: map `path` to `e`, keeping every other key. -/
def insertE (es : Entries) (p : String) (e : CacheEntry) : Entries :=
  fun q => if q = p then some e else es q

/-- `HashMap::remove`: drop `path`, keeping every other key. -/
def removeE (es : Entries) (p : String) : Entries :=
  fun q => if q = p then none else es q

/-- The cache state: the retention TTL and the entry map. -/
structure CacheState where
  retention : Nat
  entries : Entries

/-- The metadata a successful backend `put_opts`/`get_opts` returns (its
e-tag and version, as copied into `CacheEntry` at `metadata.rs`
lines 43-69). -/
structure ObjMeta where
  eTag : Option String
  version : Option String
  deriving Repr, DecidableEq

/-- Result of `Cache::get_opts` as seen by the caller. -/
inductive GetOutcome where
  | notModified
  | ok (meta : ObjMeta)
  | err
  deriving Repr, DecidableEq

/-- The hit test of `Cache::get_opts` (`metadata.rs` lines 269-278): the
entry has a cached e-tag, the options carry `if_none_match`, and the two
are equal. -/
def cacheHit (entry : CacheEntry) (ifNoneMatch : Option String) : Bool :=
  match entry.eTag, ifNoneMatch with
  | some cached, some presented => cached == presented
  | _, _ => false

/-- `Cache::get_opts` (`metadata.rs` lines 255-362): evict aged entries;
when the entry for `path` passes the hit test, refresh its `tagged_at` and
return `NotModified` without calling the backend; otherwise forward to the
backend (`backend` holds the result it would produce, `none` being an
error): on success insert the refreshed entry, on error evict again and
remove the path. The third component counts backend calls. -/
def get_opts (st : CacheState) (now : Nat) (path : String)
    (ifNoneMatch : Option String) (backend : Option ObjMeta) :
    CacheState × GetOutcome × Nat :=
  let entries1 := evictScan st.retention now st.entries
  let forward : CacheState × GetOutcome × Nat :=
    match backend with
    | some meta =>
      ({ st with entries := insertE entries1 path ⟨meta.eTag, meta.version, now⟩ },
        .ok meta, 1)
    | none =>
      ({ st with entries := removeE (evictScan st.retention now entries1) path },
        .err, 1)
  match entries1 path with
  | some entry =>
    if cacheHit entry ifNoneMatch then
      ({ st with entries := insertE entries1 path { entry with taggedAt := now } },
        .notModified, 0)
    else forward
  | none => forward

/-- `Cache::put_opts` (`metadata.rs` lines 169-226): forward to the backend
(always one call); on success evict aged entries and record the returned
e-tag/version for the path; on error evict aged entries and remove the
path. -/
def put_opts (st : CacheState) (now : Nat) (path : String)
    (backend : Option ObjMeta) : CacheState × Option ObjMeta × Nat :=
  let entries1 := evictScan st.retention now st.entries
  match backend with
  | some res =>
    ({ st with entries := insertE entries1 path ⟨res.eTag, res.version, now⟩ },
      some res, 1)
  | none =>
    ({ st with entries := removeE entries1 path }, none, 1)

/-- `Cache::delete` (`metadata.rs` lines 364-390): forward to the backend
(always one call); on success remove the path from the cache; on error only
a metric is emitted — the cache is left untouched. -/
def delete (st : CacheState) (path : String) (backendOk : Bool) :
    CacheState × Bool × Nat :=
  if backendOk then
    ({ st with entries := removeE st.entries path }, true, 1)
  else
    (st, false, 1)

end Tansu

namespace Tansu

/-- C4: after `put(p, x)` at time `t0` returned e-tag `T`, a
`get(p, if_none_match = T)` at time `t1` within `retention` returns
`NotModified`, performs no backend call, and refreshes the entry's
`tagged_at` to `t1`; once `retention` has elapsed the same call performs
exactly one backend call. -/
theorem cache_put_then_get (st : CacheState) (p tag : String)
    (vers : Option String) (t0 t1 : Nat) (backend2 : Option ObjMeta)
    (h01 : t0 ≤ t1) :
    let st1 := (put_opts st t0 p (some ⟨some tag, vers⟩)).1
    let out := get_opts st1 t1 p (some tag) backend2
    (t1 - t0 < st.retention →
      out.2.1 = .notModified ∧ out.2.2 = 0 ∧
      out.1.entries p = some ⟨some tag, vers, t1⟩) ∧
    (st.retention ≤ t1 - t0 → out.2.2 = 1) := by
  have hst1 : (put_opts st t0 p (some ⟨some tag, vers⟩)).1.entries p =
      some ⟨some tag, vers, t0⟩ := by
    simp [put_opts, insertE]
  have hret : (put_opts st t0 p (some ⟨some tag, vers⟩)).1.retention =
      st.retention := rfl
  constructor
  · intro hfresh
    have hkeep : keepEntry st.retention t1 ⟨some tag, vers, t0⟩ = true := by
      simp only [keepEntry, Bool.and_eq_true, decide_eq_true_eq]
      exact ⟨h01, hfresh⟩
    have hE : evictScan st.retention t1
        (put_opts st t0 p (some ⟨some tag, vers⟩)).1.entries p =
        some ⟨some tag, vers, t0⟩ := by
      simp only [evictScan, hst1, hkeep, if_true]
    have hhit : cacheHit ⟨some tag, vers, t0⟩ (some tag) = true := by
      simp [cacheHit]
    simp only [get_opts, hret, hE, hhit, if_true]
    simp [insertE]
  · intro hstale
    have hkeep : keepEntry st.retention t1 ⟨some tag, vers, t0⟩ = false := by
      simp only [keepEntry]
      simp only [Bool.and_eq_false_iff, decide_eq_false_iff_not]
      omega
    have hE : evictScan st.retention t1
        (put_opts st t0 p (some ⟨some tag, vers⟩)).1.entries p = none := by
      simp only [evictScan, hst1, hkeep, Bool.false_eq_true, if_false]
    simp only [get_opts, hret, hE]
    cases backend2 <;> rfl

/-- C4 witness: retention 100 ms, put at 0, hit at 50, stale at 200. -/
theorem cache_put_then_get_witness :
    ((0:Nat) ≤ 50 ∧ (50:Nat) - 0 < 100) ∧
    (let st1 := (put_opts ⟨100, fun _ => none⟩ 0 "p" (some ⟨some "T", none⟩)).1
     (get_opts st1 50 "p" (some "T") none).2.1 = .notModified ∧
     (get_opts st1 50 "p" (some "T") none).2.2 = 0 ∧
     (get_opts st1 200 "p" (some "T") none).2.2 = 1) := by
  refine ⟨⟨by decide, by decide⟩, ?_, ?_, ?_⟩
  · exact ((cache_put_then_get ⟨100, fun _ => none⟩ "p" "T" none 0 50 none
      (by decide)).1 (by decide)).1
  · exact ((cache_put_then_get ⟨100, fun _ => none⟩ "p" "T" none 0 50 none
      (by decide)).1 (by decide)).2.1
  · exact (cache_put_then_get ⟨100, fun _ => none⟩ "p" "T" none 0 200 none
      (by decide)).2 (by decide)

/-- C5 counterexample: the claim says a backend error on `delete(p)` removes
the cache entry for `p`; in the code `Cache::delete` touches the cache only
on success, so after a failing delete the entry is still there. -/
theorem delete_error_keeps_entry :
    let e : CacheEntry := ⟨some "T", none, 0⟩
    let st : CacheState := ⟨100, fun q => if q = "p" then some e else none⟩
    (delete st "p" false).1.entries "p" = some e ∧
    (delete st "p" false).2.1 = false := by
  exact ⟨rfl, rfl⟩

/-- C5 amended: a backend error on `put(p)` removes the cache entry for `p`,
as does a backend error on a `get(p)` that reached the backend; a backend
error on `delete(p)` leaves the cache unchanged (delete evicts only on
success). The error is propagated to the caller in each case. -/
theorem cache_backend_error_eviction (st : CacheState) (now : Nat)
    (p : String) (inm : Option String) :
    ((put_opts st now p none).1.entries p = none ∧
      (put_opts st now p none).2.1 = none) ∧
    ((get_opts st now p inm none).2.2 = 1 →
      (get_opts st now p inm none).1.entries p = none ∧
      (get_opts st now p inm none).2.1 = .err) ∧
    ((delete st p false).1 = st ∧ (delete st p false).2.1 = false) := by
  refine ⟨⟨by simp [put_opts, removeE], by simp [put_opts]⟩, ?_, ⟨rfl, rfl⟩⟩
  intro hcalled
  rcases hE : evictScan st.retention now st.entries p with _ | entry
  · constructor
    · simp only [get_opts, hE]
      simp [removeE]
    · simp only [get_opts, hE]
  · by_cases hc : cacheHit entry inm = true
    · exfalso
      simp only [get_opts, hE, hc, if_true] at hcalled
      cases hcalled
    · have hc' : cacheHit entry inm = false := by
        cases h : cacheHit entry inm
        · rfl
        · exact absurd h hc
      constructor
      · simp only [get_opts, hE, hc', Bool.false_eq_true, if_false]
        simp [removeE]
      · simp only [get_opts, hE, hc', Bool.false_eq_true, if_false]

/-- C5 amended witness: empty cache, so the get forwards and errors. -/
theorem cache_backend_error_eviction_witness :
    (get_opts ⟨100, fun _ => none⟩ 0 "p" none none).2.2 = 1 ∧
    (get_opts ⟨100, fun _ => none⟩ 0 "p" none none).1.entries "p" = none ∧
    (get_opts ⟨100, fun _ => none⟩ 0 "p" none none).2.1 = .err := by
  refine ⟨rfl, ?_⟩
  have h := (cache_backend_error_eviction ⟨100, fun _ => none⟩ 0 "p" none).2.1 rfl
  exact h

end Tansu

namespace Tansu

/-- A record's key/value bytes as the validators see them. -/
structure KVRecord (β : Type) where
  key : Option β
  value : Option β
  deriving Repr, DecidableEq

/-- The per-side check shared by the Avro validator (`avro.rs`
lines 1168-1185, `decode`/`validate`) and the JSON validator (`json.rs`
lines 38-60): no schema on a side accepts anything; a schema with absent
bytes is `InvalidRecord`; otherwise the bytes must deserialize under the
schema. The external deserializer (the apache_avro reader, resp. serde_json
parsing plus the jsonschema validator) is abstracted as `D s b`, true
exactly when the bytes `b` deserialize to a value under schema `s`. -/
def validateSide {σ β : Type} (D : σ → β → Bool) (validator : Option σ)
    (encoded : Option β) : Except ErrorCode Unit :=
  match validator with
  | none => .ok ()
  | some s =>
    match encoded with
    | none => .error .invalidRecord
    | some b => if D s b then .ok () else .error .invalidRecord

/-- `Validator::validate` for both registries (`avro.rs` lines 1187-1201,
`json.rs` lines 88-101): check the key side then the value side of every
record, propagating the first error. -/
def validateBatch {σ β : Type} (D : σ → β → Bool) (key value : Option σ) :
    List (KVRecord β) → Except ErrorCode Unit
  | [] => .ok ()
  | r :: rs =>
    match validateSide D key r.key with
    | .error e => .error e
    | .ok _ =>
      match validateSide D value r.value with
      | .error e => .error e
      | .ok _ => validateBatch D key value rs

theorem validateSide_ok_iff {σ β : Type} (D : σ → β → Bool)
    (v : Option σ) (e : Option β) :
    validateSide D v e = .ok () ↔
      ∀ s, v = some s → ∃ b, e = some b ∧ D s b = true := by
  cases v with
  | none => simp [validateSide]
  | some s =>
    cases e with
    | none => simp [validateSide]
    | some b =>
      by_cases h : D s b = true
      · simp [validateSide, h]
      · have h' : D s b = false := by
          cases hd : D s b
          · rfl
          · exact absurd hd h
        simp [validateSide, h']

theorem validateSide_ok_or_invalid {σ β : Type} (D : σ → β → Bool)
    (v : Option σ) (e : Option β) :
    validateSide D v e = .ok () ∨
      validateSide D v e = .error .invalidRecord := by
  cases v with
  | none => left; rfl
  | some s =>
    cases e with
    | none => right; rfl
    | some b =>
      cases h : D s b
      · right; simp [validateSide, h]
      · left; simp [validateSide, h]

/-- C6: `validate` succeeds exactly when every record's schema-governed
sides carry bytes that deserialize under the side's schema; any failure is
`InvalidRecord` (in particular a schema side whose bytes are absent); and a
topic with no schema on either side accepts every batch. -/
theorem validate_spec {σ β : Type} (D : σ → β → Bool) (key value : Option σ)
    (records : List (KVRecord β)) :
    (validateBatch D key value records = .ok () ↔
      ∀ r ∈ records,
        (∀ s, key = some s → ∃ b, r.key = some b ∧ D s b = true) ∧
        (∀ s, value = some s → ∃ b, r.value = some b ∧ D s b = true)) ∧
    (validateBatch D key value records = .ok () ∨
      validateBatch D key value records = .error .invalidRecord) ∧
    (key = none → value = none → validateBatch D key value records = .ok ()) := by
  induction records with
  | nil =>
    refine ⟨by simp [validateBatch], Or.inl rfl, fun _ _ => rfl⟩
  | cons r rs ih =>
    refine ⟨?_, ?_, ?_⟩
    · constructor
      · intro hok
        have hk : validateSide D key r.key = .ok () := by
          rcases validateSide_ok_or_invalid D key r.key with h | h
          · exact h
          · exfalso
            simp only [validateBatch, h] at hok
            exact Except.noConfusion hok
        have hv : validateSide D value r.value = .ok () := by
          rcases validateSide_ok_or_invalid D value r.value with h | h
          · exact h
          · exfalso
            simp only [validateBatch, hk, h] at hok
            exact Except.noConfusion hok
        have hrest : validateBatch D key value rs = .ok () := by
          simp only [validateBatch, hk, hv] at hok
          exact hok
        intro x hx
        rcases List.mem_cons.1 hx with hx | hx
        · subst hx
          exact ⟨(validateSide_ok_iff D key x.key).1 hk,
            (validateSide_ok_iff D value x.value).1 hv⟩
        · exact (ih.1.1 hrest) x hx
      · intro hall
        have hr := hall r (List.mem_cons_self r rs)
        have hk : validateSide D key r.key = .ok () :=
          (validateSide_ok_iff D key r.key).2 hr.1
        have hv : validateSide D value r.value = .ok () :=
          (validateSide_ok_iff D value r.value).2 hr.2
        have hrest : validateBatch D key value rs = .ok () :=
          ih.1.2 (fun x hx => hall x (List.mem_cons_of_mem r hx))
        simp only [validateBatch, hk, hv]
        exact hrest
    · rcases validateSide_ok_or_invalid D key r.key with hk | hk
      · rcases validateSide_ok_or_invalid D value r.value with hv | hv
        · rcases ih.2.1 with hrest | hrest
          · left; simp only [validateBatch, hk, hv]; exact hrest
          · right; simp only [validateBatch, hk, hv]; exact hrest
        · right; simp only [validateBatch, hk, hv]
      · right; simp only [validateBatch, hk]
    · intro hkn hvn
      subst hkn; subst hvn
      simp only [validateBatch, validateSide]
      exact ih.2.2 rfl rfl

/-- C6 witness: a key schema with absent key bytes is `InvalidRecord`; a
schema-free topic accepts bytes that deserialize under nothing. -/
theorem validate_spec_witness :
    let D : Unit → Nat → Bool := fun _ b => decide (b = 0)
    (validateBatch D (some ()) none [⟨none, some 5⟩] = .error .invalidRecord) ∧
    (validateBatch D none none [⟨some 3, some 5⟩] = .ok ()) := by
  constructor
  · have h := (validate_spec (fun (_ : Unit) (b : Nat) => decide (b = 0))
      (some ()) none [⟨none, some 5⟩]).2.1
    rcases h with h | h
    · exfalso
      have := (validate_spec (fun (_ : Unit) (b : Nat) => decide (b = 0))
        (some ()) none [⟨none, some 5⟩]).1.1 h ⟨none, some 5⟩ (by simp)
      rcases this.1 () rfl with ⟨b, hb, _⟩
      cases hb
    · exact h
  · exact (validate_spec (fun (_ : Unit) (b : Nat) => decide (b = 0))
      none none [⟨some 3, some 5⟩]).2.2 rfl rfl

end Tansu

namespace Tansu

/-- serde_json values as `from_json` consumes them: `numI n` is a number
whose `as_i64` succeeds with `n`; `numF` is a number whose `as_i64` fails
(a fractional number, or a u64 above `i64::MAX`) while `as_f64` still
succeeds, as it does for every serde number. -/
inductive JsonValueM where
  | null
  | bool (b : Bool)
  | numI (n : Int)
  | numF
  | str (s : String)
  | arr (xs : List JsonValueM)
  | obj (kvs : List (String × JsonValueM))
  deriving Repr, BEq

/-- The `apache_avro::Schema` constructors `from_json` can face
(`avro.rs` lines 1210-1329). The logical types with no match arm —
decimal, big-decimal, duration, the local timestamps, date, the times,
fixed — fall to the catch-all error arm. -/
inductive AvroSchemaM where
  | null | boolean | int | long | float | double | bytes | string | uuid
  | date | timeMillis | timeMicros
  | timestampMillis | timestampMicros | timestampNanos
  | localTimestampMillis | localTimestampMicros | localTimestampNanos
  | decimal | bigDecimal | duration
  | fixed (n : Nat)
  | enumS (symbols : List String)
  | array (items : AvroSchemaM)
  | map (values : AvroSchemaM)
  | record (fields : List (String × AvroSchemaM))
  deriving Repr, BEq

/-- `apache_avro::types::Value` results of `from_json`. Floats are opaque
(`f64` is not modelled); `bytes` keeps the source string whose UTF-8 bytes
`Value::Bytes` takes. -/
inductive AvroValueM where
  | null
  | boolean (b : Bool)
  | int (n : Int)
  | long (n : Int)
  | float
  | double
  | uuid (s : String)
  | bytes (s : String)
  | str (s : String)
  | tsMillis (n : Int)
  | tsMicros (n : Int)
  | tsNanos (n : Int)
  | enumV (idx : Nat) (sym : String)
  | array (xs : List AvroValueM)
  | mapV (kvs : List (String × AvroValueM))
  | recordV (kvs : List (String × AvroValueM))
  deriving Repr, BEq

/-- Errors of `from_json`: `jsonToAvro` is `Error::JsonToAvro` (produced
when `as_i64` fails, by the enum symbol miss, the nanos range failure and
the catch-all arm); `fieldNotFound` is `Error::JsonToAvroFieldNotFound`;
`intOutOfRange` the `i32::try_from`/`u32::try_from` failures; `uuidInvalid`
and `dateTimeInvalid` the uuid / chrono parse failures. -/
inductive JsonToAvroErr where
  | jsonToAvro
  | fieldNotFound (field : String)
  | intOutOfRange
  | uuidInvalid
  | dateTimeInvalid
  deriving Repr, DecidableEq

/-- External parsers `from_json` calls: `uuid::Uuid::parse_str`, and
`chrono::NaiveDateTime::parse_from_str` followed by `timestamp_millis`,
`timestamp_micros` or `timestamp_nanos_opt` (for nanos the outer `Option`
is parse failure, the inner one the out-of-range failure). -/
structure JsonOracles where
  parseUuid : String → Option String
  parseMillis : String → Option Int
  parseMicros : String → Option Int
  parseNanos : String → Option (Option Int)

mutual

/-- `from_json` (`avro.rs` lines 1210-1329): convert a JSON value to an
Avro value under a schema; `(Int, Number)` and `(Long, Number)` go through
`as_i64` (failing with `JsonToAvro` on non-integral numbers, `Int` further
through `i32::try_from`); any `(schema, value)` pair without an arm falls
to the final `Err(Error::JsonToAvro(..))`. -/
def from_json (O : JsonOracles) : AvroSchemaM → JsonValueM →
    Except JsonToAvroErr AvroValueM
  | .null, .null => .ok .null
  | .boolean, .bool b => .ok (.boolean b)
  | .int, .numI n =>
    if -(2 ^ 31) ≤ n ∧ n ≤ 2 ^ 31 - 1 then .ok (.int n)
    else .error .intOutOfRange
  | .int, .numF => .error .jsonToAvro
  | .long, .numI n => .ok (.long n)
  | .long, .numF => .error .jsonToAvro
  | .double, .numI _ => .ok .double
  | .double, .numF => .ok .double
  | .float, .numI _ => .ok .float
  | .float, .numF => .ok .float
  | .uuid, .str s =>
    match O.parseUuid s with
    | some u => .ok (.uuid u)
    | none => .error .uuidInvalid
  | .bytes, .str s => .ok (.bytes s)
  | .timestampMillis, .str s =>
    match O.parseMillis s with
    | some n => .ok (.tsMillis n)
    | none => .error .dateTimeInvalid
  | .timestampMicros, .str s =>
    match O.parseMicros s with
    | some n => .ok (.tsMicros n)
    | none => .error .dateTimeInvalid
  | .timestampNanos, .str s =>
    match O.parseNanos s with
    | none => .error .dateTimeInvalid
    | some none => .error .jsonToAvro
    | some (some n) => .ok (.tsNanos n)
  | .enumS symbols, .str s =>
    match symbols.enum.find? (fun is => is.2 == s) with
    | some is =>
      if is.1 < 2 ^ 32 then .ok (.enumV is.1 is.2)
      else .error .intOutOfRange
    | none => .error .jsonToAvro
  | .string, .str s => .ok (.str s)
  | .array items, .arr xs => Except.map AvroValueM.array (fromJsonList O items xs)
  | .map values, .obj kvs => Except.map AvroValueM.mapV (fromJsonPairs O values kvs)
  | .record fields, .obj kvs =>
    Except.map AvroValueM.recordV (fromJsonFields O fields kvs)
  | _, _ => .error .jsonToAvro
termination_by s j => (sizeOf s, sizeOf j)

/-- Array items: `values.iter().map(..).collect::<Result<Vec<_>>>()`. -/
def fromJsonList (O : JsonOracles) (items : AvroSchemaM) :
    List JsonValueM → Except JsonToAvroErr (List AvroValueM)
  | [] => .ok []
  | x :: xs =>
    match from_json O items x with
    | .error e => .error e
    | .ok v =>
      match fromJsonList O items xs with
      | .error e => .error e
      | .ok vs => .ok (v :: vs)
termination_by xs => (sizeOf items, sizeOf xs)

/-- Map entries: `values.iter().map(|(k, v)| ..)` under the value schema. -/
def fromJsonPairs (O : JsonOracles) (values : AvroSchemaM) :
    List (String × JsonValueM) → Except JsonToAvroErr (List (String × AvroValueM))
  | [] => .ok []
  | (k, jv) :: kvs =>
    match from_json O values jv with
    | .error e => .error e
    | .ok v =>
      match fromJsonPairs O values kvs with
      | .error e => .error e
      | .ok vs => .ok ((k, v) :: vs)
termination_by kvs => (sizeOf values, sizeOf kvs)

/-- Record fields: every declared field must be present in the JSON object
(`value.get(&field.name).ok_or(JsonToAvroFieldNotFound)`), and its value
converts under the field's schema. -/
def fromJsonFields (O : JsonOracles) :
    List (String × AvroSchemaM) → List (String × JsonValueM) →
    Except JsonToAvroErr (List (String × AvroValueM))
  | [], _ => .ok []
  | (fname, fschema) :: rest, kvs =>
    match kvs.find? (fun kv => kv.1 == fname) with
    | none => .error (.fieldNotFound fname)
    | some kv =>
      match from_json O fschema kv.2 with
      | .error e => .error e
      | .ok v =>
        match fromJsonFields O rest kvs with
        | .error e => .error e
        | .ok vs => .ok ((fname, v) :: vs)
termination_by fields kvs => (sizeOf fields, sizeOf kvs)

end

end Tansu

namespace Tansu

theorem fromJsonFields_missing (O : JsonOracles)
    (fields : List (String × AvroSchemaM)) (kvs : List (String × JsonValueM))
    (h : ∃ fname fschema, (fname, fschema) ∈ fields ∧
      kvs.find? (fun kv => kv.1 == fname) = none) :
    ∃ e, fromJsonFields O fields kvs = .error e := by
  induction fields with
  | nil =>
    rcases h with ⟨fname, fschema, hmem, _⟩
    cases hmem
  | cons g rest ih =>
    obtain ⟨gname, gschema⟩ := g
    cases hg : kvs.find? (fun kv => kv.1 == gname) with
    | none => exact ⟨.fieldNotFound gname, by simp [fromJsonFields, hg]⟩
    | some kv =>
      cases hj : from_json O gschema kv.2 with
      | error e => exact ⟨e, by simp [fromJsonFields, hg, hj]⟩
      | ok v =>
        have hrest : ∃ fname fschema, (fname, fschema) ∈ rest ∧
            kvs.find? (fun kv => kv.1 == fname) = none := by
          rcases h with ⟨fname, fschema, hmem, hfind⟩
          rcases List.mem_cons.1 hmem with h1 | h1
          · exfalso
            have hn : fname = gname := (Prod.mk.injEq _ _ _ _ ▸ h1).1
            rw [hn, hg] at hfind
            exact Option.noConfusion hfind
          · exact ⟨fname, fschema, h1, hfind⟩
        rcases ih hrest with ⟨e, he⟩
        exact ⟨e, by simp [fromJsonFields, hg, hj, he]⟩

/-- C8: integer schemas (`int`, `long`) accept exactly the integral JSON
numbers (those where `as_i64` succeeds, `int` further bounded by `i32`) and
fail on fractional ones; the `decimal`, `big-decimal`, `duration` and
`local-timestamp` schemas fail for every JSON value (no match arm, so the
catch-all error fires); and a `record` schema fails whenever the JSON
object is missing a declared field. -/
theorem from_json_spec (O : JsonOracles) :
    (∀ n : Int, from_json O .int (.numI n) =
      if -(2 ^ 31) ≤ n ∧ n ≤ 2 ^ 31 - 1 then .ok (.int n)
      else .error .intOutOfRange) ∧
    (from_json O .int .numF = .error .jsonToAvro) ∧
    (∀ n : Int, from_json O .long (.numI n) = .ok (.long n)) ∧
    (from_json O .long .numF = .error .jsonToAvro) ∧
    (∀ j, from_json O .decimal j = .error .jsonToAvro) ∧
    (∀ j, from_json O .bigDecimal j = .error .jsonToAvro) ∧
    (∀ j, from_json O .duration j = .error .jsonToAvro) ∧
    (∀ j, from_json O .localTimestampMillis j = .error .jsonToAvro) ∧
    (∀ j, from_json O .localTimestampMicros j = .error .jsonToAvro) ∧
    (∀ j, from_json O .localTimestampNanos j = .error .jsonToAvro) ∧
    (∀ fields kvs,
      (∃ fname fschema, (fname, fschema) ∈ fields ∧
        kvs.find? (fun kv => kv.1 == fname) = none) →
      ∃ e, from_json O (.record fields) (.obj kvs) = .error e) := by
  refine ⟨fun n => by simp [from_json], by simp [from_json],
    fun n => by simp [from_json], by simp [from_json],
    fun j => by cases j <;> simp [from_json],
    fun j => by cases j <;> simp [from_json],
    fun j => by cases j <;> simp [from_json],
    fun j => by cases j <;> simp [from_json],
    fun j => by cases j <;> simp [from_json],
    fun j => by cases j <;> simp [from_json],
    fun fields kvs h => ?_⟩
  rcases fromJsonFields_missing O fields kvs h with ⟨e, he⟩
  exact ⟨e, by simp [from_json, he, Except.map]⟩

/-- C8 witness: a record schema with field `a` rejects the empty JSON
object; `int` rejects a fractional number; `decimal` rejects `null`. -/
theorem from_json_spec_witness :
    let O0 : JsonOracles :=
      ⟨fun _ => none, fun _ => none, fun _ => none, fun _ => none⟩
    (∃ fname fschema, (fname, fschema) ∈ [("a", AvroSchemaM.int)] ∧
      (([] : List (String × JsonValueM)).find? (fun kv => kv.1 == fname)) = none) ∧
    (∃ e, from_json O0 (.record [("a", .int)]) (.obj []) = .error e) ∧
    from_json O0 .int .numF = .error .jsonToAvro ∧
    from_json O0 .decimal .null = .error .jsonToAvro := by
  refine ⟨⟨"a", .int, by simp, rfl⟩, ?_, ?_, ?_⟩
  · exact (from_json_spec
      ⟨fun _ => none, fun _ => none, fun _ => none, fun _ => none⟩).2.2.2.2.2.2.2.2.2.2
      [("a", .int)] [] ⟨"a", .int, by simp, rfl⟩
  · exact (from_json_spec
      ⟨fun _ => none, fun _ => none, fun _ => none, fun _ => none⟩).2.1
  · exact (from_json_spec
      ⟨fun _ => none, fun _ => none, fun _ => none, fun _ => none⟩).2.2.2.2.1 .null

end Tansu

namespace Tansu

/-- `serde_json::Value::get` on an object: the value at the first matching
key (`None` on non-objects and missing keys). -/
def jget (j : JsonValueM) (k : String) : Option JsonValueM :=
  match j with
  | .obj kvs => (kvs.find? (fun kv => kv.1 == k)).map (fun kv => kv.2)
  | _ => none

/-- Per-topic schema pair: an optional key-side and value-side schema. -/
structure TopicSchema (σ : Type) where
  key : Option σ
  value : Option σ
  deriving Repr

/-- The Rust `field.get("name").is_some_and(|name| name == "key")` test:
`serde_json::Value` compares equal to a `&str` exactly when it is a JSON
string with those contents. -/
def isName (f : JsonValueM) (k : String) : Bool :=
  match jget f "name" with
  | some (.str s) => s == k
  | _ => false

/-- `From<&JsonValue> for avro::Schema` (`avro.rs` lines 64-101): look up
the `fields` array of the document; without one (or when it is not an
array) both sides are `None`. Within it, find the field object whose
`name` is `"key"` (resp. `"value"`) and parse it with `AvroSchema::parse`
(abstracted as `parse`) — a parse failure is discarded with `.ok()`,
silently leaving that side `None`. -/
def schemaFromJson (parse : JsonValueM → Option AvroSchemaM)
    (doc : JsonValueM) : TopicSchema AvroSchemaM :=
  match jget doc "fields" with
  | some (.arr fields) =>
    { key := (fields.find? (fun f => isName f "key")).bind parse
      value := (fields.find? (fun f => isName f "value")).bind parse }
  | _ => { key := none, value := none }

/-- `TryFrom<Bytes> for json::Schema` (`json.rs` lines 62-86): look up the
`properties` member; without one both sides are `None`; otherwise build a
validator for `properties.key` / `properties.value` with
`jsonschema::validator_for` (abstracted as `validatorFor`) — a build
failure is discarded with `.ok()`, silently leaving that side `None`. -/
def jsonSchemaFromDoc {V : Type} (validatorFor : JsonValueM → Option V)
    (doc : JsonValueM) : TopicSchema V :=
  match jget doc "properties" with
  | some props =>
    { key := (jget props "key").bind validatorFor
      value := (jget props "value").bind validatorFor }
  | none => { key := none, value := none }

theorem validateBatch_no_schema {σ β : Type} (D : σ → β → Bool)
    (records : List (KVRecord β)) :
    validateBatch D none none records = .ok () := by
  induction records with
  | nil => rfl
  | cons r rs ih =>
    simp only [validateBatch, validateSide]
    exact ih

/-- C9: a schema side that fails to parse (or an absent `fields` /
`properties` member) silently leaves that side with no schema, in both the
Avro and the JSON Schema registry — and a side with no schema accepts any
bytes (including absent ones) during validation, instead of the malformed
schema being reported as an error. -/
theorem schema_parse_failure_silently_unvalidated {β V : Type}
    (D : AvroSchemaM → β → Bool)
    (parse : JsonValueM → Option AvroSchemaM)
    (validatorFor : JsonValueM → Option V) (doc : JsonValueM) :
    (∀ fields f, jget doc "fields" = some (.arr fields) →
      fields.find? (fun g => isName g "key") = some f →
      parse f = none →
      (schemaFromJson parse doc).key = none) ∧
    (jget doc "fields" = none → schemaFromJson parse doc = ⟨none, none⟩) ∧
    (∀ props, jget doc "properties" = some props →
      (jget props "key").bind validatorFor = none →
      (jsonSchemaFromDoc validatorFor doc).key = none) ∧
    (jget doc "properties" = none →
      jsonSchemaFromDoc validatorFor doc = ⟨none, none⟩) ∧
    (∀ e : Option β, validateSide D none e = .ok ()) ∧
    (∀ records : List (KVRecord β),
      (schemaFromJson parse doc).key = none →
      (schemaFromJson parse doc).value = none →
      validateBatch D (schemaFromJson parse doc).key
        (schemaFromJson parse doc).value records = .ok ()) := by
  refine ⟨?_, ?_, ?_, ?_, fun e => rfl, ?_⟩
  · intro fields f h1 h2 h3
    simp [schemaFromJson, h1, h2, h3]
  · intro h
    simp [schemaFromJson, h]
  · intro props h1 h2
    simp [jsonSchemaFromDoc, h1, h2]
  · intro h
    simp [jsonSchemaFromDoc, h]
  · intro records h1 h2
    rw [h1, h2]
    exact validateBatch_no_schema D records

/-- C9 witness: a document with a `key` field whose schema never parses
yields `key = None`, and key bytes that deserialize under nothing still
validate. -/
theorem schema_parse_failure_silently_unvalidated_witness :
    let parse0 : JsonValueM → Option AvroSchemaM := fun _ => none
    let doc : JsonValueM := .obj [("fields", .arr [.obj [("name", .str "key")]])]
    (jget doc "fields" = some (.arr [.obj [("name", .str "key")]]) ∧
      [JsonValueM.obj [("name", .str "key")]].find? (fun g => isName g "key") =
        some (.obj [("name", .str "key")]) ∧
      parse0 (.obj [("name", .str "key")]) = none) ∧
    (schemaFromJson parse0 doc).key = none ∧
    validateSide (fun (_ : AvroSchemaM) (_ : List Nat) => false) none
      (some [1, 2]) = .ok () := by
  refine ⟨⟨rfl, rfl, rfl⟩, ?_, ?_⟩
  · exact (schema_parse_failure_silently_unvalidated
      (fun (_ : AvroSchemaM) (_ : List Nat) => false)
      (fun _ => none) (fun (_ : JsonValueM) => (none : Option Unit))
      (.obj [("fields", .arr [.obj [("name", .str "key")]])])).1
      [.obj [("name", .str "key")]] (.obj [("name", .str "key")]) rfl rfl rfl
  · exact (schema_parse_failure_silently_unvalidated
      (fun (_ : AvroSchemaM) (_ : List Nat) => false)
      (fun _ => none) (fun (_ : JsonValueM) => (none : Option Unit))
      (.obj [("fields", .arr [.obj [("name", .str "key")]])])).2.2.2.2.1
      (some [1, 2])

end Tansu

namespace Tansu

/-- A `consumer_group` row for one cluster: the CAS e-tag (a UUID rendered
as a string) and the opaque JSON group detail. -/
structure GroupRow where
  eTag : String
  detail : String
  deriving Repr, DecidableEq

/-- The `consumer_group` table keyed by group id, within one cluster. -/
def Groups := String → Option GroupRow

/-- The `Version` argument of `update_group`: an optional e-tag string
(the `version` subfield plays no part in the code path). -/
structure VersionT where
  eTag : Option String
  deriving Repr, DecidableEq

/-- Outcomes of `update_group` (`pg.rs` lines 1448-1541): success with the
fresh e-tag; `UpdateError::Outdated` with the stored detail and e-tag;
`UpdateError::MissingEtag` when a version without an e-tag is supplied;
an error when the supplied e-tag fails `Uuid::from_str`; and the
`query_one` failure of the Outdated branch when no row exists. -/
inductive UpdateOutcome where
  | ok (eTag : String)
  | outdated (current : String) (eTag : String)
  | missingEtag
  | invalidEtag
  | noCurrentRow
  deriving Repr, DecidableEq

/-- Is the outcome one of the two the claim allows? -/
def isOkOrOutdated : UpdateOutcome → Bool
  | .ok _ => true
  | .outdated _ _ => true
  | _ => false

/-- Modelled from the spec: `pg/consumer_group_insert.sql` is not under
`src/`. Per the spec ("Generate a new UUID; update row only when existing
`e_tag = version.e_tag` (or when no version is supplied and no row
exists)") it is an upsert returning the written row: insert when no row
exists for `(cluster, group)`, update when the stored e-tag equals the
supplied existing e-tag, and return no row otherwise. -/
def consumer_group_insert (gs : Groups) (gid existing newTag detail : String) :
    Groups × Option String :=
  match gs gid with
  | none =>
    (fun g => if g = gid then some ⟨newTag, detail⟩ else gs g, some newTag)
  | some row =>
    if row.eTag = existing then
      (fun g => if g = gid then some ⟨newTag, detail⟩ else gs g, some newTag)
    else (gs, none)

/-- `Postgres::update_group` (`pg.rs` lines 1448-1541): compute the
existing e-tag — a fresh random UUID (`freshExisting`) when no version is
supplied, else the version's e-tag, failing with `MissingEtag` when it is
absent and with a parse error when it is not a UUID (`validUuid`
abstracting `Uuid::from_str`); generate the new e-tag (`newTag`); run the
CAS upsert; when it returns a row, succeed with the new e-tag, otherwise
read the current row (`pg/consumer_group_detail.sql`) and return
`Outdated` with its detail and e-tag (`query_one` fails when it is
absent). The mutated table is returned alongside. -/
def update_group (gs : Groups) (gid detail : String)
    (version : Option VersionT) (freshExisting newTag : String)
    (validUuid : String → Bool) : Groups × UpdateOutcome :=
  let proceed : String → Groups × UpdateOutcome := fun existing =>
    match consumer_group_insert gs gid existing newTag detail with
    | (gs', some written) => (gs', .ok written)
    | (_, none) =>
      match gs gid with
      | some row => (gs, .outdated row.detail row.eTag)
      | none => (gs, .noCurrentRow)
  match version with
  | none => proceed freshExisting
  | some v =>
    match v.eTag with
    | none => (gs, .missingEtag)
    | some s => if validUuid s then proceed s else (gs, .invalidEtag)

/-- C7 counterexample: a call supplying a version without an e-tag returns
`MissingEtag` — neither a success nor `Outdated`, refuting "exactly one of
two outcomes" as stated. -/
theorem update_group_missing_etag_neither :
    isOkOrOutdated
      (update_group (fun _ => none) "g" "d" (some ⟨none⟩) "fresh" "new"
        (fun _ => true)).2 = false := by
  rfl

/-- C7 amended: every `update_group` call that supplies either no version
or a version carrying an e-tag that parses as a UUID has exactly one of
two outcomes — success with the freshly generated e-tag, or `Outdated`
with the currently stored detail and e-tag — never both and never
neither; a call supplying a version without an e-tag (or with an
unparsable one) errors with neither outcome. -/
theorem update_group_cas (gs : Groups) (gid detail freshExisting newTag : String)
    (version : Option VersionT) (validUuid : String → Bool)
    (hv : version = none ∨
      ∃ s, version = some ⟨some s⟩ ∧ validUuid s = true) :
    let out := (update_group gs gid detail version freshExisting newTag validUuid).2
    isOkOrOutdated out = true ∧
    ((∃ t, out = .ok t) ↔ ¬∃ c e, out = .outdated c e) ∧
    (∀ t, out = .ok t → t = newTag) ∧
    (∀ c e, out = .outdated c e → ∃ row, gs gid = some row ∧
      c = row.detail ∧ e = row.eTag) := by
  have key : ∀ existing : String,
      let pout := (update_group gs gid detail none existing newTag validUuid).2
      isOkOrOutdated pout = true ∧
      ((∃ t, pout = .ok t) ↔ ¬∃ c e, pout = .outdated c e) ∧
      (∀ t, pout = .ok t → t = newTag) ∧
      (∀ c e, pout = .outdated c e → ∃ row, gs gid = some row ∧
        c = row.detail ∧ e = row.eTag) := by
    intro existing
    cases hrow : gs gid with
    | none =>
      simp only [update_group, consumer_group_insert, hrow]
      refine ⟨rfl, ?_, ?_, ?_⟩
      · constructor
        · rintro ⟨t, ht⟩ ⟨c, e, he⟩
          rw [ht] at he
          exact UpdateOutcome.noConfusion he
        · intro h
          exact ⟨newTag, rfl⟩
      · intro t ht
        exact (UpdateOutcome.ok.injEq _ _ ▸ ht).symm
      · intro c e he
        exact absurd he (by simp)
    | some row =>
      by_cases htag : row.eTag = existing
      · simp only [update_group, consumer_group_insert, hrow, htag, if_pos rfl]
        refine ⟨rfl, ?_, ?_, ?_⟩
        · constructor
          · rintro ⟨t, ht⟩ ⟨c, e, he⟩
            rw [ht] at he
            exact UpdateOutcome.noConfusion he
          · intro h
            exact ⟨newTag, rfl⟩
        · intro t ht
          exact (UpdateOutcome.ok.injEq _ _ ▸ ht).symm
        · intro c e he
          exact absurd he (by simp)
      · simp only [update_group, consumer_group_insert, hrow, if_neg htag]
        refine ⟨rfl, ?_, ?_, ?_⟩
        · constructor
          · rintro ⟨t, ht⟩
            exact absurd ht (by simp)
          · intro h
            exact absurd ⟨row.detail, row.eTag, rfl⟩ h
        · intro t ht
          exact absurd ht (by simp)
        · intro c e he
          refine ⟨row, rfl, ?_, ?_⟩
          · exact ((UpdateOutcome.outdated.injEq _ _ _ _ ▸ he).1).symm
          · exact ((UpdateOutcome.outdated.injEq _ _ _ _ ▸ he).2).symm
  rcases hv with hv | ⟨s, hv, hvalid⟩
  · subst hv
    exact key freshExisting
  · subst hv
    have h := key s
    simp only [update_group] at h ⊢
    rw [hvalid]
    simpa using h
end Tansu

namespace Tansu

/-- C7 amended witness: no version supplied and no row — the call succeeds
with the fresh e-tag, one of the two allowed outcomes. -/
theorem update_group_cas_witness :
    ((none : Option VersionT) = none ∨ ∃ s, (none : Option VersionT) =
      some ⟨some s⟩ ∧ (fun (_ : String) => true) s = true) ∧
    isOkOrOutdated
      (update_group (fun _ => none) "g" "d" none "fresh" "new"
        (fun _ => true)).2 = true ∧
    (update_group (fun _ => none) "g" "d" none "fresh" "new"
        (fun _ => true)).2 = .ok "new" := by
  refine ⟨Or.inl rfl, ?_, rfl⟩
  exact (update_group_cas (fun _ => none) "g" "d" "fresh" "new" none
    (fun _ => true) (Or.inl rfl)).1

end Tansu
